import Mathlib

/-!
Shallow embedding of the eth_vm bytecode interpreter.

Words (`U256` / `B256` in the source) are modelled as `Nat`; operations that
wrap in the source apply `% 2 ^ 256` explicitly.  Rust methods taking
`&mut self` are modelled as functions returning the new value; a Rust panic
(`unwrap`, out-of-bounds slice index, division by zero on `U256`/`I256`)
is modelled as `none` / an explicit error value.  `HashMap` is modelled as an
association list where insertion conses the new binding in front (lookup
takes the first match).
-/

/-- The word modulus: `U256` arithmetic wraps modulo `2 ^ 256`. -/
def wordMod : Nat := 2 ^ 256

/-- Wrapping addition, as `a + b` on `U256` (source doc: no overflow check). -/
def wrapAdd (a b : Nat) : Nat := (a + b) % wordMod

/-- Wrapping subtraction `a - b` on `U256` (two's-complement wraparound). -/
def wrapSub (a b : Nat) : Nat := (a + (wordMod - b % wordMod)) % wordMod

/-- Wrapping multiplication, as `a * b` on `U256`. -/
def wrapMul (a b : Nat) : Nat := (a * b) % wordMod

/-- Rust `%` on `U256`: panics (here `none`) when the divisor is zero. -/
def remU (x y : Nat) : Option Nat := if y = 0 then none else some (x % y)

/-- Signed reinterpretation of a 256-bit pattern (`I256::from_limbs`). -/
def toSigned (w : Nat) : Int :=
  if w % wordMod < 2 ^ 255 then ((w % wordMod : Nat) : Int)
  else ((w % wordMod : Nat) : Int) - (2 ^ 256 : Int)

/-- Unsigned bit pattern of a signed value (`U256::from_limbs` of an `I256`). -/
def fromSigned (i : Int) : Nat := (i % (2 ^ 256 : Int)).toNat

/-- Error type from `crates/primitives/src/errors.rs` (file not in the
sources); the variant name `StackTooDeep` is the one `stack.rs` uses. -/
inductive EvmErrors where
  | StackTooDeep
deriving DecidableEq

/-- `Stack` from `crates/primitives/src/stack.rs`: `data: Vec<B256>`, the
top of the stack is the last element of the vector. -/
structure Stack where
  data : List Nat
deriving DecidableEq

/-- `Stack::push`: error (leaving the stack unchanged) when the length is
already at least 1024, otherwise append at the end. -/
def Stack.push (s : Stack) (value : Nat) : Except EvmErrors Unit × Stack :=
  if s.data.length ≥ 1024 then (Except.error EvmErrors.StackTooDeep, s)
  else (Except.ok (), ⟨s.data ++ [value]⟩)

/-- `Stack::pop`: `Vec::pop`, removing and returning the last element;
`none` on an empty stack (the stack is unchanged in that case). -/
def Stack.pop (s : Stack) : Option Nat × Stack :=
  (s.data.getLast?, ⟨s.data.dropLast⟩)

/-- `Stack::len`. -/
def Stack.len (s : Stack) : Nat := s.data.length

/-- `stack.pop().unwrap()` as handlers use it: panic (`none`) on empty. -/
def Stack.popU (s : Stack) : Option (Nat × Stack) :=
  match s.pop with
  | (some w, s1) => some (w, s1)
  | (none, _) => none

/-- `stack.push(v).unwrap()` as handlers use it: panic (`none`) on error. -/
def Stack.pushU (s : Stack) (value : Nat) : Option Stack :=
  match s.push value with
  | (Except.ok _, s1) => some s1
  | (Except.error _, _) => none

/-- Iterated `Stack::push`, stopping at the first push that errors
(used to state the 1024-pushes property). -/
def Stack.pushAll (s : Stack) : List Nat → Option Stack
  | [] => some s
  | v :: vs =>
    match s.push v with
    | (Except.ok _, s1) => s1.pushAll vs
    | (Except.error _, _) => none

/-- `Memory` from `crates/primitives/src/memory.rs`: `data: Vec<u8>`. -/
structure Memory where
  data : List Nat
deriving DecidableEq

/-- Big-endian byte decomposition: `toBeBytes n w` is the `n`-byte
big-endian encoding of `w % 256 ^ n` (as `U256::to_be_bytes::<32>` with
`n = 32`). -/
def toBeBytes : Nat → Nat → List Nat
  | 0, _ => []
  | n + 1, w => toBeBytes n (w / 256) ++ [w % 256]

/-- Big-endian recomposition of a byte list (`U256::from_be_slice`). -/
def beToWord (bs : List Nat) : Nat := bs.foldl (fun acc b => acc * 256 + b) 0

/-- `Memory::store_word`: `self.data[offset..offset+32].copy_from_slice(..)`.
The slice indexing panics (`none`) when `offset + 32 > data.len()`; the
memory is NOT grown. -/
def Memory.store_word (m : Memory) (offset : Nat) (word : Nat) : Option Memory :=
  if offset + 32 ≤ m.data.length then
    some ⟨m.data.take offset ++ toBeBytes 32 word ++ m.data.drop (offset + 32)⟩
  else none

/-- `Memory::load_word`: reads `data[offset..offset+32]` big-endian;
panics (`none`) when out of range. -/
def Memory.load_word (m : Memory) (offset : Nat) : Option Nat :=
  if offset + 32 ≤ m.data.length then
    some (beToWord ((m.data.drop offset).take 32))
  else none

/-- `Memory::store_byte`: `self.data[offset] = byte`; panics out of range. -/
def Memory.store_byte (m : Memory) (offset : Nat) (byte : Nat) : Option Memory :=
  if offset < m.data.length then
    some ⟨m.data.take offset ++ [byte] ++ m.data.drop (offset + 1)⟩
  else none

/-- `Memory::load_byte`: `self.data[offset]`; panics (`none`) out of range. -/
def Memory.load_byte (m : Memory) (offset : Nat) : Option Nat :=
  m.data.get? offset

/-- Account record (struct `EvmAccount` lives in the absent
`evm_types.rs`; its fields `code`, `balance`, `word` are the ones
`storage.rs` and `lib.rs` use, and §3 of the spec lists the same three). -/
structure EvmAccount where
  code : List Nat
  balance : Nat
  word : List (Nat × Nat)
deriving DecidableEq

/-- `EvmAccount::default()`: empty code, zero balance, no slots. -/
def EvmAccount.default : EvmAccount := ⟨[], 0, []⟩

/-- `EvmStorage` (declared in the absent `evm_types.rs`; `storage.rs`
shows `data: HashMap<Address, EvmAccount>`).  Addresses are `Nat`. -/
structure EvmStorage where
  data : List (Nat × EvmAccount)
deriving DecidableEq

/-- `EvmStorage::s_load` from `crates/primitives/src/storage.rs`:
`data.get(&address).and_then(|a| a.word.get(&key).copied()).unwrap()` —
the `unwrap` panics (`none`) for an unknown address or an unset key. -/
def EvmStorage.s_load (st : EvmStorage) (address : Nat) (key : Nat) : Option Nat :=
  (st.data.lookup address).bind fun account => account.word.lookup key

/-- `EvmStorage::s_store`: `entry(address).or_insert_with(default)` then
`word.insert(key, value)`; modelled by consing the updated binding. -/
def EvmStorage.s_store (st : EvmStorage) (address : Nat) (key : Nat) (value : Nat) :
    EvmStorage :=
  let account := (st.data.lookup address).getD EvmAccount.default
  ⟨(address, { account with word := (key, value) :: account.word }) :: st.data⟩

/-- Modelled from the spec: `BlockEnv` is declared in `evm_types.rs`, which
is not in the sources; §3 of the spec lists its fields. -/
structure BlockEnv where
  number : Nat
  timestamp : Nat
  coinbase : Nat
  gas_limit : Nat
  base_fee : Nat
  block_hash : Nat
  chain_id : Nat
deriving DecidableEq

/-- Modelled from the spec: `Transaction` is declared in `evm_types.rs`,
which is not in the sources; §3 of the spec and the driver's literal give
the fields (`from` and `to` are named `sender` and `recipient` here, both
being Lean keywords). -/
structure Transaction where
  sender : Nat
  recipient : Nat
  value : Nat
  nonce : Nat
  data : List Nat
  gas_limit : Nat
deriving DecidableEq

/-- `ProgramExitStatus` from `crates/evm_core/src/lib.rs`: `Default` means
still running; `run()` loops while the status is `Default`. -/
inductive ProgramExitStatus where
  | Success
  | Failure
  | Default
deriving DecidableEq

/-- The `Evm` machine state from `crates/evm_core/src/lib.rs`. -/
structure Evm where
  block_env : BlockEnv
  tx : Transaction
  memory : Memory
  stack : Stack
  storage : EvmStorage
  pc : Nat
  status : ProgramExitStatus
deriving DecidableEq

namespace ariths

/-- `stop` from `operations/ariths.rs`: set status to `Success`. -/
def stop (e : Evm) : Option Evm :=
  some { e with status := ProgramExitStatus.Success }

/-- `add`: pop `a`, pop `b`, push `a + b` (wrapping). -/
def add (e : Evm) : Option Evm :=
  match e.stack.popU with
  | none => none
  | some (a, s1) =>
    match s1.popU with
    | none => none
    | some (b, s2) =>
      match s2.pushU (wrapAdd a b) with
      | none => none
      | some s3 => some { e with stack := s3 }

/-- `sub`: pop `a`, pop `b`, push `a - b` (wrapping `U256` subtraction). -/
def sub (e : Evm) : Option Evm :=
  match e.stack.popU with
  | none => none
  | some (a, s1) =>
    match s1.popU with
    | none => none
    | some (b, s2) =>
      match s2.pushU (wrapSub a b) with
      | none => none
      | some s3 => some { e with stack := s3 }

/-- `mul`: pop `a`, pop `b`, push `a * b` (wrapping). -/
def mul (e : Evm) : Option Evm :=
  match e.stack.popU with
  | none => none
  | some (a, s1) =>
    match s1.popU with
    | none => none
    | some (b, s2) =>
      match s2.pushU (wrapMul a b) with
      | none => none
      | some s3 => some { e with stack := s3 }

/-- `div`: pop `a`, pop `b`; push 0 when `b == 0`, else `a / b`. -/
def div (e : Evm) : Option Evm :=
  match e.stack.popU with
  | none => none
  | some (a, s1) =>
    match s1.popU with
    | none => none
    | some (b, s2) =>
      if b = 0 then
        match s2.pushU 0 with
        | none => none
        | some s3 => some { e with stack := s3 }
      else
        match s2.pushU (a / b) with
        | none => none
        | some s3 => some { e with stack := s3 }

/-- `sdiv`: signed division on the two's-complement views; push 0 when the
divisor is 0; `I256::MIN / -1` overflows (Rust panic, `none`). -/
def sdiv (e : Evm) : Option Evm :=
  match e.stack.popU with
  | none => none
  | some (a, s1) =>
    match s1.popU with
    | none => none
    | some (b, s2) =>
      if toSigned b = 0 then
        match s2.pushU 0 with
        | none => none
        | some s3 => some { e with stack := s3 }
      else if toSigned a = -(2 ^ 255 : Int) ∧ toSigned b = -1 then none
      else
        match s2.pushU (fromSigned (Int.tdiv (toSigned a) (toSigned b))) with
        | none => none
        | some s3 => some { e with stack := s3 }

/-- `modulo` (the `MOD` handler): pop `a`, pop `b`; push 0 when `b == 0`,
else `a % b`. -/
def modulo (e : Evm) : Option Evm :=
  match e.stack.popU with
  | none => none
  | some (a, s1) =>
    match s1.popU with
    | none => none
    | some (b, s2) =>
      if b = 0 then
        match s2.pushU 0 with
        | none => none
        | some s3 => some { e with stack := s3 }
      else
        match s2.pushU (a % b) with
        | none => none
        | some s3 => some { e with stack := s3 }

/-- `smod`: the source delegates to unsigned modulo (`a % b`), pushing 0
when `b == 0`. -/
def smod (e : Evm) : Option Evm :=
  match e.stack.popU with
  | none => none
  | some (a, s1) =>
    match s1.popU with
    | none => none
    | some (b, s2) =>
      if b = 0 then
        match s2.pushU 0 with
        | none => none
        | some s3 => some { e with stack := s3 }
      else
        match s2.pushU (a % b) with
        | none => none
        | some s3 => some { e with stack := s3 }

/-- `addmod`: pop `a`, `b`, `c`; the source tests `b == 0` (not `c`!) and
otherwise computes `(a + b) % c`, whose `%` panics when `c == 0`. -/
def addmod (e : Evm) : Option Evm :=
  match e.stack.popU with
  | none => none
  | some (a, s1) =>
    match s1.popU with
    | none => none
    | some (b, s2) =>
      match s2.popU with
      | none => none
      | some (c, s3) =>
        if b = 0 then
          match s3.pushU 0 with
          | none => none
          | some s4 => some { e with stack := s4 }
        else
          match remU (wrapAdd a b) c with
          | none => none
          | some r =>
            match s3.pushU r with
            | none => none
            | some s4 => some { e with stack := s4 }

/-- `mulmod`: pop `a`, `b`, `c`; the source tests `b == 0` (not `c`!) and
otherwise computes `(a * b) % c`, whose `%` panics when `c == 0`. -/
def mulmod (e : Evm) : Option Evm :=
  match e.stack.popU with
  | none => none
  | some (a, s1) =>
    match s1.popU with
    | none => none
    | some (b, s2) =>
      match s2.popU with
      | none => none
      | some (c, s3) =>
        if b = 0 then
          match s3.pushU 0 with
          | none => none
          | some s4 => some { e with stack := s4 }
        else
          match remU (wrapMul a b) c with
          | none => none
          | some r =>
            match s3.pushU r with
            | none => none
            | some s4 => some { e with stack := s4 }

/-- `jump`: pop the target and set `pc = target.as_limbs()[0] as usize`
(the low 64 bits); no jump-destination validation is performed. -/
def jump (e : Evm) : Option Evm :=
  match e.stack.popU with
  | none => none
  | some (target, s1) =>
    some { e with stack := s1, pc := target % 2 ^ 64 }

/-- `jumpi`: pop target then condition; when the condition's low limb
(`as_limbs()[0]`) is nonzero set `pc` to the target's low limb; again no
validation of the destination. -/
def jumpi (e : Evm) : Option Evm :=
  match e.stack.popU with
  | none => none
  | some (target, s1) =>
    match s1.popU with
    | none => none
    | some (condition, s2) =>
      if condition % 2 ^ 64 ≠ 0 then
        some { e with stack := s2, pc := target % 2 ^ 64 }
      else
        some { e with stack := s2 }

end ariths

/-- `noop` from `jump_tables.rs`: `pub fn noop(_evm: &mut Evm) {}`. -/
def noop (e : Evm) : Option Evm := some e

/-- Modelled from the spec: the `Opcode` enum lives in `opcodes.rs`, which
is not in the sources.  Only the variants this development needs are given;
the byte values are the standard ones the spec's operation set (§4.6) and
the driver's byte-level comments fix (`PUSH1 = 0x60`, `ADD = 0x01`,
`MSTORE = 0x52`, `MLOAD = 0x51`, `STOP = 0x00`). -/
inductive Opcode where
  | STOP
  | ADD
  | MUL
  | SUB
  | DIV
  | SDIV
  | MOD
  | SMOD
  | MLOAD
  | MSTORE
  | PUSH1
deriving DecidableEq

/-- The numeric discriminant (`opcode as usize`). -/
def Opcode.toByte : Opcode → Nat
  | .STOP => 0x00
  | .ADD => 0x01
  | .MUL => 0x02
  | .SUB => 0x03
  | .DIV => 0x04
  | .SDIV => 0x05
  | .MOD => 0x06
  | .SMOD => 0x07
  | .MLOAD => 0x51
  | .MSTORE => 0x52
  | .PUSH1 => 0x60

/-- Modelled from the spec: `Opcode::from_u8` (in the absent `opcodes.rs`)
decodes a byte; `none` for a byte with no variant (`unwrap` then panics). -/
def Opcode.from_u8 (b : Nat) : Option Opcode :=
  if b = 0x00 then some .STOP
  else if b = 0x01 then some .ADD
  else if b = 0x02 then some .MUL
  else if b = 0x03 then some .SUB
  else if b = 0x04 then some .DIV
  else if b = 0x05 then some .SDIV
  else if b = 0x06 then some .MOD
  else if b = 0x07 then some .SMOD
  else if b = 0x51 then some .MLOAD
  else if b = 0x52 then some .MSTORE
  else if b = 0x60 then some .PUSH1
  else none

/-- `build_jump_table` from `jump_tables.rs`: a 256-entry array initialised
to `noop` everywhere, then overwritten at exactly the eight indices
`STOP, ADD, SUB, MUL, DIV, SDIV, SMOD, MOD`; modelled as the function the
array tabulates (index-to-handler). -/
def build_jump_table (i : Nat) : Evm → Option Evm :=
  if i = Opcode.STOP.toByte then ariths.stop
  else if i = Opcode.ADD.toByte then ariths.add
  else if i = Opcode.SUB.toByte then ariths.sub
  else if i = Opcode.MUL.toByte then ariths.mul
  else if i = Opcode.DIV.toByte then ariths.div
  else if i = Opcode.SDIV.toByte then ariths.sdiv
  else if i = Opcode.SMOD.toByte then ariths.smod
  else if i = Opcode.MOD.toByte then ariths.modulo
  else noop

/-- `Evm::step` from `lib.rs`: fetch the byte at `pc` from memory, decode
it with `Opcode::from_u8(..).unwrap()` (panic on undefined bytes), look the
handler up in the table and call it.  The trailing `self.pc += 1` is
commented out in the source and no handler performs it either. -/
def Evm.step (e : Evm) : Option Evm :=
  match e.memory.load_byte e.pc with
  | none => none
  | some raw_instruction =>
    match Opcode.from_u8 raw_instruction with
    | none => none
    | some instruction => build_jump_table instruction.toByte e

/-- `Evm::run`: `while self.status == ProgramExitStatus::default() { step }`,
given fuel; `none` means the loop has not terminated within the fuel (or a
step panicked). -/
def runFuel : Nat → Evm → Option Evm
  | 0, e => if e.status = ProgramExitStatus.Default then none else some e
  | n + 1, e =>
    if e.status = ProgramExitStatus.Default then (e.step).bind (runFuel n)
    else some e

/-- A zeroed block environment for the concrete example states. -/
def blockEnv0 : BlockEnv := ⟨0, 0, 0, 0, 0, 0, 0⟩

/-- An empty transaction for the concrete example states. -/
def tx0 : Transaction := ⟨0, 0, 0, 0, [], 0⟩

/-- State whose code region is the single unassigned byte `0x60` (`PUSH1`),
for the dispatch-table claim. -/
def exC1 : Evm :=
  { block_env := blockEnv0, tx := tx0, memory := ⟨[0x60, 0x06]⟩,
    stack := ⟨[]⟩, storage := ⟨[]⟩, pc := 0, status := ProgramExitStatus.Default }

/-- State about to execute `ADD` with operands 2 and 3, for the
pc-advancement claim. -/
def exC2 : Evm :=
  { block_env := blockEnv0, tx := tx0, memory := ⟨[0x01]⟩,
    stack := ⟨[2, 3]⟩, storage := ⟨[]⟩, pc := 0, status := ProgramExitStatus.Default }

/-- Scenario A of §8: `[PUSH1 6, PUSH1 7, ADD, PUSH1 0, MSTORE, PUSH1 0,
MLOAD, STOP]` seeded as the code region, empty stack, `pc = 0`. -/
def exRunA : Evm :=
  { block_env := blockEnv0, tx := tx0,
    memory := ⟨[0x60, 0x06, 0x60, 0x07, 0x01, 0x60, 0x00, 0x52, 0x60, 0x00, 0x51, 0x00]⟩,
    stack := ⟨[]⟩, storage := ⟨[]⟩, pc := 0, status := ProgramExitStatus.Default }

/-- State with stack (top first) `10, 2` for the DIV/MOD witness. -/
def exC6 : Evm :=
  { block_env := blockEnv0, tx := tx0, memory := ⟨[]⟩,
    stack := ⟨[2, 10]⟩, storage := ⟨[]⟩, pc := 0, status := ProgramExitStatus.Default }

/-- State with stack (top first) `a = 5, b = 0, c = 3` for ADDMOD. -/
def exC7a : Evm :=
  { block_env := blockEnv0, tx := tx0, memory := ⟨[]⟩,
    stack := ⟨[3, 0, 5]⟩, storage := ⟨[]⟩, pc := 0, status := ProgramExitStatus.Default }

/-- State with stack (top first) `a = 5, b = 2, c = 0` for MULMOD. -/
def exC7m : Evm :=
  { block_env := blockEnv0, tx := tx0, memory := ⟨[]⟩,
    stack := ⟨[0, 2, 5]⟩, storage := ⟨[]⟩, pc := 0, status := ProgramExitStatus.Default }

/-- State with jump target 9 on the stack over a 2-byte code region that
contains no `JUMPDEST` at all (9 is out of range, too). -/
def exC8 : Evm :=
  { block_env := blockEnv0, tx := tx0, memory := ⟨[0x60, 0x03]⟩,
    stack := ⟨[9]⟩, storage := ⟨[]⟩, pc := 0, status := ProgramExitStatus.Default }

/-- State with jump target 5 on the stack, for the amended-jump witness. -/
def exC8w : Evm :=
  { block_env := blockEnv0, tx := tx0, memory := ⟨[]⟩,
    stack := ⟨[7, 5]⟩, storage := ⟨[]⟩, pc := 0, status := ProgramExitStatus.Default }

/-- A full stack of 1024 zeros. -/
def full1024 : Stack := ⟨List.replicate 1024 0⟩

/-- State whose code region is the single byte `STOP`. -/
def exC10 : Evm :=
  { block_env := blockEnv0, tx := tx0, memory := ⟨[0x00]⟩,
    stack := ⟨[]⟩, storage := ⟨[]⟩, pc := 0, status := ProgramExitStatus.Default }

/-- The state `exC10` after its one `STOP` step. -/
def exC10out : Evm := { exC10 with status := ProgramExitStatus.Success }

/-- A 32-byte zero memory for the store/load witness. -/
def mem32 : Memory := ⟨List.replicate 32 0⟩

/-- An account holding exactly the slot `2 ↦ 42`, for the s_load witness. -/
def acctC4 : EvmAccount := ⟨[], 0, [(2, 42)]⟩

/-- A non-empty storage with `acctC4` at address 1 (address 5 unknown,
key 9 unset), for the s_load witness. -/
def stC4 : EvmStorage := ⟨[(1, acctC4)]⟩

/-! ## Helper lemmas -/

theorem popU_concat (l : List Nat) (a : Nat) :
    Stack.popU ⟨l ++ [a]⟩ = some (a, ⟨l⟩) := by
  simp [Stack.popU, Stack.pop, List.getLast?_concat, List.dropLast_concat]

theorem pushU_of_lt (l : List Nat) (v : Nat) (h : l.length < 1024) :
    Stack.pushU ⟨l⟩ v = some ⟨l ++ [v]⟩ := by
  have hok : Stack.push ⟨l⟩ v = (Except.ok (), ⟨l ++ [v]⟩) := by
    unfold Stack.push
    rw [if_neg (by simpa using Nat.not_le.mpr h)]
  simp [Stack.pushU, hok]

theorem step_eq (e : Evm) :
    Evm.step e = (e.memory.load_byte e.pc).bind fun raw =>
      (Opcode.from_u8 raw).bind fun instruction =>
        build_jump_table instruction.toByte e := by
  unfold Evm.step
  cases hl : e.memory.load_byte e.pc with
  | none => simp [hl]
  | some raw =>
    cases hf : Opcode.from_u8 raw with
    | none => simp [hl, hf]
    | some instruction => simp [hl, hf]

theorem stop_status (e e' : Evm) (h : ariths.stop e = some e') :
    e'.status = ProgramExitStatus.Success := by
  unfold ariths.stop at h
  cases h
  rfl

theorem add_status (e e' : Evm) (h : ariths.add e = some e') :
    e'.status = e.status := by
  unfold ariths.add at h
  repeat' split at h
  all_goals first
    | (cases h; rfl)
    | simp_all

theorem sub_status (e e' : Evm) (h : ariths.sub e = some e') :
    e'.status = e.status := by
  unfold ariths.sub at h
  repeat' split at h
  all_goals first
    | (cases h; rfl)
    | simp_all

theorem mul_status (e e' : Evm) (h : ariths.mul e = some e') :
    e'.status = e.status := by
  unfold ariths.mul at h
  repeat' split at h
  all_goals first
    | (cases h; rfl)
    | simp_all

theorem div_status (e e' : Evm) (h : ariths.div e = some e') :
    e'.status = e.status := by
  unfold ariths.div at h
  repeat' split at h
  all_goals first
    | (cases h; rfl)
    | simp_all

set_option maxRecDepth 4096 in
theorem sdiv_status (e e' : Evm) (h : ariths.sdiv e = some e') :
    e'.status = e.status := by
  unfold ariths.sdiv at h
  repeat' split at h
  all_goals first
    | (cases h; rfl)
    | simp_all

theorem smod_status (e e' : Evm) (h : ariths.smod e = some e') :
    e'.status = e.status := by
  unfold ariths.smod at h
  repeat' split at h
  all_goals first
    | (cases h; rfl)
    | simp_all

theorem modulo_status (e e' : Evm) (h : ariths.modulo e = some e') :
    e'.status = e.status := by
  unfold ariths.modulo at h
  repeat' split at h
  all_goals first
    | (cases h; rfl)
    | simp_all

theorem runFuel_of_halted (n : Nat) (e : Evm)
    (h : e.status ≠ ProgramExitStatus.Default) : runFuel n e = some e := by
  cases n <;> simp [runFuel, h]

theorem pushAll_ok (vs : List Nat) :
    ∀ s : Stack, s.data.length + vs.length ≤ 1024 →
      ∃ s', s.pushAll vs = some s' ∧ s'.data.length = s.data.length + vs.length := by
  induction vs with
  | nil =>
    intro s _
    exact ⟨s, rfl, by simp⟩
  | cons v vs ih =>
    intro s h
    have hlt : s.data.length < 1024 := by
      simp only [List.length_cons] at h
      omega
    have hpush : s.push v = (Except.ok (), ⟨s.data ++ [v]⟩) := by
      unfold Stack.push
      rw [if_neg (by simpa using Nat.not_le.mpr hlt)]
    have h2 : (⟨s.data ++ [v]⟩ : Stack).data.length + vs.length ≤ 1024 := by
      simp only [List.length_append, List.length_cons, List.length_nil] at h ⊢
      omega
    obtain ⟨s', hs', hlen⟩ := ih ⟨s.data ++ [v]⟩ h2
    refine ⟨s', ?_, ?_⟩
    · simp only [Stack.pushAll, hpush]
      exact hs'
    · simp only [List.length_append, List.length_cons, List.length_nil] at hlen
      simp only [List.length_cons]
      omega

theorem toBeBytes_length (n : Nat) : ∀ w : Nat, (toBeBytes n w).length = n := by
  induction n with
  | zero => intro w; rfl
  | succ n ih => intro w; simp [toBeBytes, ih]

theorem beToWord_toBeBytes (n : Nat) : ∀ w : Nat, beToWord (toBeBytes n w) = w % 256 ^ n := by
  induction n with
  | zero => intro w; simp [toBeBytes, beToWord, Nat.mod_one]
  | succ n ih =>
    intro w
    unfold toBeBytes
    rw [beToWord, List.foldl_append]
    simp only [List.foldl_cons, List.foldl_nil]
    rw [← beToWord, ih]
    have h := @Nat.mod_mul 256 (256 ^ n) w
    rw [pow_succ, mul_comm (256 ^ n) 256, h]
    omega

theorem drop_take_append (pre mid post : List Nat) (o k : Nat)
    (h1 : pre.length = o) (h2 : mid.length = k) :
    ((pre ++ mid ++ post).drop o).take k = mid := by
  subst h1
  subst h2
  rw [List.append_assoc, List.drop_left, List.take_left]

/-! ## Claim theorems -/

/-- C1: the dispatch table does NOT route undefined opcodes to a
failure-setting handler.  `build_jump_table` maps the unassigned byte
`0x60` (`PUSH1`) to `noop`, and a `step` that fetches it is a silent
no-op: the state (status included) is returned unchanged, with the status
still `Default`, never `Failure`. -/
theorem undefined_opcode_silent_noop :
    build_jump_table 0x60 = noop ∧
    Evm.step exC1 = some exC1 ∧
    exC1.status = ProgramExitStatus.Default := by
  refine ⟨rfl, by decide, rfl⟩

/-- C2: `step` does not advance the program counter.  Executing the `ADD`
at `pc = 0` of `exC2` (a one-byte, no-immediate instruction whose handler
is not a jump) leaves `pc` at 0 where the claim requires `pc = 1`. -/
theorem step_no_pc_advance :
    Evm.step exC2 = some { exC2 with stack := ⟨[5]⟩ } ∧
    ({ exC2 with stack := (⟨[5]⟩ : Stack) } : Evm).pc = exC2.pc ∧
    exC2.pc = 0 := by
  refine ⟨by decide, rfl, rfl⟩

/-- C3: running scenario A `[PUSH1 6, PUSH1 7, ADD, PUSH1 0, MSTORE,
PUSH1 0, MLOAD, STOP]` never terminates: the `PUSH1` at `pc = 0` maps to
`noop` and no pc advance happens, so `step` is the identity on `exRunA`
and `run` (any fuel) never leaves the `Default` status. -/
theorem run_scenario_a_diverges :
    Evm.step exRunA = some exRunA ∧ ∀ n : Nat, runFuel n exRunA = none := by
  have hstep : Evm.step exRunA = some exRunA := by decide
  refine ⟨hstep, ?_⟩
  intro n
  induction n with
  | zero => rfl
  | succ n ih =>
    unfold runFuel
    rw [if_pos (show exRunA.status = ProgramExitStatus.Default from rfl), hstep]
    simpa using ih

/-- C7: ADDMOD and MULMOD test the second popped operand `b` for zero
instead of the modulus `c`.  With `a = 5, b = 0, c = 3`, `addmod` pushes 0
although `(5 + 0) % 3 = 2`; with `a = 5, b = 2, c = 0`, `mulmod` evaluates
`(5 * 2) % 0` and panics instead of pushing 0. -/
theorem addmod_mulmod_wrong_operand :
    ariths.addmod exC7a = some { exC7a with stack := ⟨[0]⟩ } ∧
    (5 + 0) % 3 = 2 ∧
    ariths.mulmod exC7m = none := by
  refine ⟨by decide, by norm_num, by decide⟩

/-- C4 (counterexample): `s_load` on an empty storage panics (`none`)
instead of returning `some 0`, for address 0 and key 0. -/
theorem s_load_empty_panics :
    EvmStorage.s_load ⟨[]⟩ 0 0 = none ∧ (none : Option Nat) ≠ some 0 := by
  refine ⟨rfl, by decide⟩

/-- C4 (amended): `s_load` returns the value most recently stored for an
address/key present in storage, and panics (`none`) — rather than
returning zero — in every storage whenever the address has no account
record, and likewise whenever the account record exists but the key is
unset in it. -/
theorem s_load_amended :
    (∀ (st : EvmStorage) (address key value : Nat),
        (st.s_store address key value).s_load address key = some value) ∧
    (∀ (st : EvmStorage) (address key : Nat),
        st.data.lookup address = none →
        st.s_load address key = none) ∧
    (∀ (st : EvmStorage) (address key : Nat) (account : EvmAccount),
        st.data.lookup address = some account →
        account.word.lookup key = none →
        st.s_load address key = none) := by
  refine ⟨?_, ?_, ?_⟩
  · intro st a k v
    simp [EvmStorage.s_store, EvmStorage.s_load, List.lookup]
  · intro st a k h
    simp [EvmStorage.s_load, h]
  · intro st a k account h1 h2
    simp [EvmStorage.s_load, h1, h2]

/-- Witness for the amended C4 on the non-empty storage `stC4`: address 5
is unknown so `s_load` panics; address 1 exists but key 9 is unset so
`s_load` panics; and a stored slot reads back. -/
theorem s_load_amended_witness :
    (stC4.data.lookup 5 = none ∧ EvmStorage.s_load stC4 5 2 = none) ∧
    (stC4.data.lookup 1 = some acctC4 ∧ acctC4.word.lookup 9 = none ∧
      EvmStorage.s_load stC4 1 9 = none) ∧
    EvmStorage.s_load (EvmStorage.s_store stC4 1 2 42) 1 2 = some 42 := by
  refine ⟨⟨by decide, s_load_amended.2.1 stC4 5 2 (by decide)⟩,
    ⟨by decide, by decide, s_load_amended.2.2 stC4 1 9 acctC4 (by decide) (by decide)⟩,
    s_load_amended.1 stC4 1 2 42⟩

/-- C6: with two words on the stack (top `a`, below it `b`, and room to
push the result back), `div` pushes 0 when the divisor `b` is 0 and the
quotient `a / b` otherwise, and `modulo` pushes 0 when `b` is 0 and the
remainder `a % b` otherwise; neither handler faults. -/
theorem div_modulo_total :
    ∀ (e : Evm) (a b : Nat) (rest : List Nat),
      e.stack.data = rest ++ [b, a] → rest.length < 1024 →
      ariths.div e = some { e with stack := ⟨rest ++ [if b = 0 then 0 else a / b]⟩ } ∧
      ariths.modulo e = some { e with stack := ⟨rest ++ [if b = 0 then 0 else a % b]⟩ } := by
  intro e a b rest hdata hlen
  obtain ⟨be, tx, mem, ⟨sd⟩, sto, pc, st⟩ := e
  simp only at hdata
  subst hdata
  have h1 : Stack.popU ⟨rest ++ [b, a]⟩ = some (a, ⟨rest ++ [b]⟩) := by
    rw [show (rest ++ [b, a] : List Nat) = (rest ++ [b]) ++ [a] by simp]
    exact popU_concat _ _
  have h2 : Stack.popU ⟨rest ++ [b]⟩ = some (b, ⟨rest⟩) := popU_concat _ _
  by_cases hb : b = 0
  · subst hb
    constructor
    · simp [ariths.div, h1, h2, pushU_of_lt _ _ hlen]
    · simp [ariths.modulo, h1, h2, pushU_of_lt _ _ hlen]
  · constructor
    · simp [ariths.div, h1, h2, hb, pushU_of_lt _ _ hlen]
    · simp [ariths.modulo, h1, h2, hb, pushU_of_lt _ _ hlen]

/-- Witness for C6 at the concrete state `exC6` (stack top 10, then 2). -/
theorem div_modulo_total_witness :
    ariths.div exC6 = some { exC6 with stack := ⟨[5]⟩ } ∧
    ariths.modulo exC6 = some { exC6 with stack := ⟨[0]⟩ } := by
  have h := div_modulo_total exC6 10 2 [] rfl (by decide)
  simpa using h

/-- C8 (counterexample): the jump target 9 lies outside the two-byte code
region of `exC8` (which contains no `JUMPDEST` anywhere), yet `jump` sets
`pc = 9` and leaves the status `Default` — it does not fail. -/
theorem jump_unvalidated :
    exC8.memory.data.length = 2 ∧
    ariths.jump exC8 = some { exC8 with stack := ⟨[]⟩, pc := 9 } ∧
    ({ exC8 with stack := (⟨[]⟩ : Stack), pc := 9 } : Evm).status ≠
      ProgramExitStatus.Failure := by
  refine ⟨rfl, by decide, by decide⟩

/-- C8 (amended): `jump` pops the target and unconditionally sets `pc` to
its low 64 bits, with no jump-destination validation and no failure
status; `jumpi` pops target then condition and does the same exactly when
the condition's low 64 bits are nonzero. -/
theorem jump_jumpi_unchecked :
    (∀ (e : Evm) (target : Nat) (rest : List Nat),
        e.stack.data = rest ++ [target] →
        ariths.jump e = some { e with stack := ⟨rest⟩, pc := target % 2 ^ 64 }) ∧
    (∀ (e : Evm) (target condition : Nat) (rest : List Nat),
        e.stack.data = rest ++ [condition, target] →
        ariths.jumpi e =
          some { e with stack := ⟨rest⟩, pc := ite (condition % 2 ^ 64 ≠ 0) (target % 2 ^ 64) e.pc }) := by
  constructor
  · intro e target rest hdata
    obtain ⟨be, tx, mem, ⟨sd⟩, sto, pc, st⟩ := e
    simp only at hdata
    subst hdata
    simp [ariths.jump, popU_concat]
  · intro e target condition rest hdata
    obtain ⟨be, tx, mem, ⟨sd⟩, sto, pc, st⟩ := e
    simp only at hdata
    subst hdata
    have h1 : Stack.popU ⟨rest ++ [condition, target]⟩ =
        some (target, ⟨rest ++ [condition]⟩) := by
      rw [show (rest ++ [condition, target] : List Nat)
            = (rest ++ [condition]) ++ [target] by simp]
      exact popU_concat _ _
    have h2 : Stack.popU ⟨rest ++ [condition]⟩ = some (condition, ⟨rest⟩) :=
      popU_concat _ _
    simp [ariths.jumpi, h1, h2]
    split_ifs <;> rfl

/-- Witness for the amended C8 at `exC8w` (stack top 5, below it 7). -/
theorem jump_jumpi_unchecked_witness :
    ariths.jump exC8w = some { exC8w with stack := ⟨[7]⟩, pc := 5 % 2 ^ 64 } :=
  jump_jumpi_unchecked.1 exC8w 5 [7] rfl

/-- C9: a push onto a stack already holding 1024 items fails with
`StackTooDeep` and returns the stack unchanged; a pop of an empty stack
returns `none` with the stack unchanged; and pushing any 1024 values onto
the empty stack succeeds, yields length exactly 1024, and makes every
further push fail with `StackTooDeep`, again leaving the stack unchanged. -/
theorem stack_depth_invariant :
    (∀ (s : Stack) (v : Nat), s.data.length = 1024 →
        s.push v = (Except.error EvmErrors.StackTooDeep, s)) ∧
    (∀ s : Stack, s.data.length = 0 → s.pop = (none, s)) ∧
    (∀ vs : List Nat, vs.length = 1024 →
        ∃ s', Stack.pushAll ⟨[]⟩ vs = some s' ∧ s'.data.length = 1024 ∧
          ∀ v, s'.push v = (Except.error EvmErrors.StackTooDeep, s')) := by
  have hfull : ∀ (s : Stack) (v : Nat), s.data.length = 1024 →
      s.push v = (Except.error EvmErrors.StackTooDeep, s) := by
    intro s v h
    unfold Stack.push
    rw [if_pos (by omega)]
  refine ⟨hfull, ?_, ?_⟩
  · intro s h
    obtain ⟨sd⟩ := s
    simp only [List.length_eq_zero] at h
    subst h
    rfl
  · intro vs hvs
    obtain ⟨s', hs', hlen⟩ := pushAll_ok vs ⟨[]⟩ (by simp [hvs])
    simp only [List.length_nil, Nat.zero_add] at hlen
    rw [hvs] at hlen
    exact ⟨s', hs', hlen, fun v => hfull s' v hlen⟩

/-- Witness for C9: the full stack of 1024 zeros rejects a push unchanged,
and the empty stack pops `none` unchanged. -/
theorem stack_depth_invariant_witness :
    Stack.push full1024 7 = (Except.error EvmErrors.StackTooDeep, full1024) ∧
    Stack.pop ⟨[]⟩ = (none, (⟨[]⟩ : Stack)) := by
  constructor
  · exact stack_depth_invariant.1 full1024 7 (List.length_replicate 1024 0)
  · exact stack_depth_invariant.2.1 ⟨[]⟩ rfl

/-- C10: every handler installed in the dispatch table either leaves the
status unchanged or sets it to `Success` (only `stop` does the latter);
consequently a `run` that starts in the `Default` status and terminates
can only terminate with the `Success` status, never `Failure`. -/
theorem dispatch_never_fails :
    (∀ (i : Nat) (e e' : Evm), build_jump_table i e = some e' →
        e'.status = e.status ∨ e'.status = ProgramExitStatus.Success) ∧
    (∀ (n : Nat) (e e' : Evm), e.status = ProgramExitStatus.Default →
        runFuel n e = some e' → e'.status = ProgramExitStatus.Success) := by
  have htab : ∀ (i : Nat) (e e' : Evm), build_jump_table i e = some e' →
      e'.status = e.status ∨ e'.status = ProgramExitStatus.Success := by
    intro i e e' h
    unfold build_jump_table at h
    repeat' split at h
    · exact Or.inr (stop_status e e' h)
    · exact Or.inl (add_status e e' h)
    · exact Or.inl (sub_status e e' h)
    · exact Or.inl (mul_status e e' h)
    · exact Or.inl (div_status e e' h)
    · exact Or.inl (sdiv_status e e' h)
    · exact Or.inl (smod_status e e' h)
    · exact Or.inl (modulo_status e e' h)
    · cases h
      exact Or.inl rfl
  have hstep : ∀ (e e' : Evm), Evm.step e = some e' →
      e'.status = e.status ∨ e'.status = ProgramExitStatus.Success := by
    intro e e' h
    rw [step_eq] at h
    rcases Option.bind_eq_some.mp h with ⟨raw, _, h2⟩
    rcases Option.bind_eq_some.mp h2 with ⟨instruction, _, h3⟩
    exact htab _ e e' h3
  have hrun : ∀ (n : Nat) (e e' : Evm), e.status = ProgramExitStatus.Default →
      runFuel n e = some e' → e'.status = ProgramExitStatus.Success := by
    intro n
    induction n with
    | zero =>
      intro e e' hD h
      unfold runFuel at h
      rw [if_pos hD] at h
      cases h
    | succ n ih =>
      intro e e' hD h
      unfold runFuel at h
      rw [if_pos hD] at h
      rcases Option.bind_eq_some.mp h with ⟨e1, hstep1, hrest⟩
      rcases hstep e e1 hstep1 with hsame | hsucc
      · exact ih e1 e' (hsame.trans hD) hrest
      · rw [runFuel_of_halted n e1 (by rw [hsucc]; simp)] at hrest
        cases hrest
        exact hsucc
  exact ⟨htab, hrun⟩

/-- Witness for C10: the one-instruction `STOP` program starts `Default`,
runs to completion in two fuel units, and ends with status `Success`. -/
theorem dispatch_never_fails_witness :
    exC10.status = ProgramExitStatus.Default ∧
    runFuel 2 exC10 = some exC10out ∧
    exC10out.status = ProgramExitStatus.Success := by
  have hrun : runFuel 2 exC10 = some exC10out := by decide
  exact ⟨rfl, hrun, dispatch_never_fails.2 2 exC10 exC10out rfl hrun⟩

/-- C5 (counterexample): `store_word` at offset 0 on an empty memory
(length 0 < 32) panics (`none`) instead of growing the memory. -/
theorem store_word_no_growth :
    Memory.store_word ⟨[]⟩ 0 7 = none ∧ (⟨[]⟩ : Memory).data.length < 0 + 32 := by
  refine ⟨rfl, by decide⟩

/-- C5 (amended): when the memory is already at least `o + 32` bytes long,
`store_word o w` succeeds — without growing the memory — and a subsequent
`load_word o` returns `w`; when the memory is shorter than `o + 32` the
store fails (panics) instead of growing. -/
theorem store_load_roundtrip :
    (∀ (m : Memory) (o w : Nat), o + 32 ≤ m.data.length → w < 2 ^ 256 →
        (m.store_word o w).bind (fun m2 => m2.load_word o) = some w ∧
        (m.store_word o w).map (fun m2 => m2.data.length) = some m.data.length) ∧
    (∀ (m : Memory) (o w : Nat), m.data.length < o + 32 →
        m.store_word o w = none) := by
  constructor
  · intro m o w ho hw
    have hstore : m.store_word o w =
        some ⟨m.data.take o ++ toBeBytes 32 w ++ m.data.drop (o + 32)⟩ := by
      unfold Memory.store_word
      rw [if_pos ho]
    have hlen2 : (m.data.take o ++ toBeBytes 32 w ++ m.data.drop (o + 32)).length
        = m.data.length := by
      simp only [List.length_append, List.length_take, List.length_drop,
        toBeBytes_length]
      omega
    constructor
    · rw [hstore]
      simp only [Option.some_bind]
      unfold Memory.load_word
      rw [if_pos (by simp only [hlen2]; exact ho)]
      have hext : ((m.data.take o ++ toBeBytes 32 w ++ m.data.drop (o + 32)).drop o).take 32
          = toBeBytes 32 w :=
        drop_take_append _ _ _ o 32
          (by simp only [List.length_take]; omega) (toBeBytes_length 32 w)
      rw [hext, beToWord_toBeBytes]
      have h256 : (256 : Nat) ^ 32 = 2 ^ 256 := by norm_num
      rw [h256, Nat.mod_eq_of_lt hw]
    · rw [hstore]
      simp only [Option.map_some']
      rw [hlen2]
  · intro m o w h
    unfold Memory.store_word
    rw [if_neg (by omega)]

/-- Witness for the amended C5 at offset 0, word 13, on a 32-byte memory. -/
theorem store_load_roundtrip_witness :
    ((0 : Nat) + 32 ≤ mem32.data.length ∧ (13 : Nat) < 2 ^ 256) ∧
    (mem32.store_word 0 13).bind (fun m2 => m2.load_word 0) = some 13 ∧
    (mem32.store_word 0 13).map (fun m2 => m2.data.length) = some mem32.data.length ∧
    Memory.store_word ⟨[]⟩ 0 13 = none := by
  have h1 : (0 : Nat) + 32 ≤ mem32.data.length := by decide
  have h2 : (13 : Nat) < 2 ^ 256 := by norm_num
  have h := store_load_roundtrip.1 mem32 0 13 h1 h2
  exact ⟨⟨h1, h2⟩, h.1, h.2, store_load_roundtrip.2 ⟨[]⟩ 0 13 (by decide)⟩
